import Mathlib

/-!
Verification development for the kport repository (Go): the SSH port
forwarder core.  We shallowly embed the discovery parse pipeline
(`detectRemotePorts` in the ssh-command variant), the common-port probe
fallback (`detectCommonPorts`), the local-port allocator
(`findPreferredLocalPort`), the `PortForwarder` start/stop state machine
(`port_forwarder.go`), and the controller commands `StartPortForwarding`
and `StartManualPortForwarding`.  Go strings are `List Char`; the OS and
remote environment (command outcomes, bind availability, ephemeral-port
assignment, process-spawn success) are passed in as explicit parameters.
-/

namespace Kport

/-! ### Go string primitives used by the parse pipeline -/

/-- `unicode.IsSpace` from Go, the predicate used by `strings.TrimSpace`:
Latin-1 whitespace (tab, newline, vertical tab, form feed, carriage
return, space, NEL, NBSP) together with the Unicode space runes. -/
def goIsSpace (c : Char) : Bool :=
  c.toNat == 9 || c.toNat == 10 || c.toNat == 11 || c.toNat == 12 ||
  c.toNat == 13 || c.toNat == 32 || c.toNat == 0x85 || c.toNat == 0xA0 ||
  c.toNat == 0x1680 || decide (0x2000 ≤ c.toNat ∧ c.toNat ≤ 0x200A) ||
  c.toNat == 0x2028 || c.toNat == 0x2029 || c.toNat == 0x202F ||
  c.toNat == 0x205F || c.toNat == 0x3000

/-- `strings.TrimSpace`: drop whitespace from both ends. -/
def trimSpace (s : List Char) : List Char :=
  ((s.dropWhile goIsSpace).reverse.dropWhile goIsSpace).reverse

/-- `strings.Split(s, "\n")`: the substrings between newline separators.
`strings.Split("", "\n")` is `[""]`, hence the `[[]]` base case. -/
def splitNewline : List Char → List (List Char)
  | [] => [[]]
  | c :: cs =>
    if c = '\n' then [] :: splitNewline cs
    else
      match splitNewline cs with
      | [] => [[c]]
      | p :: ps => (c :: p) :: ps

/-- The digits of a decimal numeral, or `none` when the string is empty
or contains a non-digit (the error cases of Go's `strconv.ParseInt`
after the sign has been stripped). -/
def parseDigits (cs : List Char) : Option Nat :=
  if cs = [] then none
  else if cs.all Char.isDigit then
    some (cs.foldl (fun n c => n * 10 + (c.toNat - 48)) 0)
  else none

/-- Go's `int` range check performed by `strconv.ParseInt(s, 10, 0)`
on a 64-bit platform: out-of-range values are an error. -/
def int64Range (v : Int) : Option Int :=
  if -(2 ^ 63) ≤ v ∧ v ≤ 2 ^ 63 - 1 then some v else none

/-- `strconv.Atoi`: an optional sign followed by at least one decimal
digit, within the `int` range; everything else is an error (`none`). -/
def atoi (cs : List Char) : Option Int :=
  match cs with
  | '+' :: rest => (parseDigits rest).bind fun n => int64Range (n : Int)
  | '-' :: rest => (parseDigits rest).bind fun n => int64Range (-(n : Int))
  | rest => (parseDigits rest).bind fun n => int64Range (n : Int)

/-! ### The parse stage of `detectRemotePorts` (ssh-command variant) -/

/-- One iteration of the parse loop: trim the line, skip it when empty,
`Atoi` it, and keep the value only when `0 < port && port < 65536`. -/
def parseLine (line : List Char) : Option Int :=
  let t := trimSpace line
  if t = [] then none
  else
    match atoi t with
    | some port => if 0 < port ∧ port < 65536 then some port else none
    | none => none

/-- `removeDuplicates`' loop: `seen` plays the role of the `keys` map;
an item already seen is skipped, otherwise it is appended and recorded. -/
def removeDupAux : List Int → List Int → List Int
  | [], _ => []
  | x :: xs, seen =>
    if x ∈ seen then removeDupAux xs seen
    else x :: removeDupAux xs (x :: seen)

/-- `removeDuplicates` from the ssh-command variant: keep the first
occurrence of each value, in input order. -/
def removeDuplicates (slice : List Int) : List Int :=
  removeDupAux slice []

/-- `sort.Ints`: sort ascending. -/
def sortInts (l : List Int) : List Int :=
  List.insertionSort (· ≤ ·) l

/-- The whole parse stage of `detectRemotePorts` applied to the raw
bytes of a successful enumeration command: split into lines, parse each
line, then `removeDuplicates` and `sort.Ints`. -/
def parseDetectedPorts (output : List Char) : List Int :=
  sortInts (removeDuplicates ((splitNewline output).filterMap parseLine))

/-! ### The discovery operation (`DetectPorts`, ssh-command variant) -/

/-- The three remote enumeration strategies of `detectRemotePorts`, in
their fixed priority order.  Their shell text (netstat / ss / lsof
pipelines reducing to one port number per line) is executed remotely and
is opaque to the Go control flow, so it is elided here. -/
inductive RemoteCmd
  | netstatCmd
  | ssListCmd
  | lsofListCmd
deriving DecidableEq

/-- The outcome of running one command over ssh, as seen by the Go code:
the captured stdout bytes and whether `Output()` reported an error. -/
structure CmdResult where
  out : List Char
  failed : Bool
deriving DecidableEq

/-- The fixed `commands` slice of `detectRemotePorts`. -/
def commands : List RemoteCmd :=
  [RemoteCmd.netstatCmd, RemoteCmd.ssListCmd, RemoteCmd.lsofListCmd]

/-- The command loop of `detectRemotePorts`: run each strategy in order,
overwriting the shared `output, err` pair, and break on the first
outcome with no error and non-empty output.  `acc` is the current value
of that pair (initially `nil, nil`). -/
def runCommandLoop (run : RemoteCmd → CmdResult) :
    List RemoteCmd → CmdResult → CmdResult
  | [], acc => acc
  | c :: cs, _ =>
    let r := run c
    if r.failed = false ∧ r.out ≠ [] then r else runCommandLoop run cs r

/-- The fixed `commonPorts` candidate list of `detectCommonPorts`. -/
def commonPorts : List Int :=
  [80, 443, 3000, 3001, 4000, 5000, 8000, 8080, 8443, 9000]

/-- The word `"open"` echoed by the per-port probe command. -/
def openWord : List Char :=
  ['o', 'p', 'e', 'n']

/-- Whether the per-port ssh probe of `detectCommonPorts` marks `p`
open: `Output()` succeeded and the trimmed output is `"open"`. -/
def probeIsOpen (probe : Int → CmdResult) (p : Int) : Bool :=
  decide ((probe p).failed = false ∧ trimSpace (probe p).out = openWord)

/-- `detectCommonPorts` (ssh-command variant): probe each candidate port
through the transport and keep, in order, those that answered open. -/
def detectCommonPorts (probe : Int → CmdResult) : List Int :=
  commonPorts.filter (probeIsOpen probe)

/-- `detectRemotePorts` (ssh-command variant): run the enumeration
strategies; if the final `err` is set or the final output is empty, fall
back to `detectCommonPorts`; otherwise parse the output.  Both return
statements of the Go function pass a `nil` error, which is why only the
`Except.ok` constructor ever appears. -/
def detectRemotePorts (run : RemoteCmd → CmdResult) (probe : Int → CmdResult) :
    Except (List Char) (List Int) :=
  let r := runCommandLoop run commands ⟨[], false⟩
  if r.failed = true ∨ r.out = [] then Except.ok (detectCommonPorts probe)
  else Except.ok (parseDetectedPorts r.out)

/-- The bubbletea messages produced by the forwarding core
(`PortsDetectedMsg`, `ForwardingStartedMsg`, `ErrorMsg`; error payloads
elided). -/
inductive TeaMsg
  | portsDetected (ports : List Int)
  | forwardingStarted (localPort remotePort : Int)
  | errorMsg
deriving DecidableEq

/-- The body of the `DetectPorts` command: a `detectRemotePorts` error is
logged and degraded to an empty `PortsDetectedMsg`; success is delivered
as `PortsDetectedMsg` with the detected list. -/
def detectPortsMsg (r : Except (List Char) (List Int)) : TeaMsg :=
  match r with
  | Except.error _ => TeaMsg.portsDetected []
  | Except.ok ports => TeaMsg.portsDetected ports

/-- `DetectPorts`: the single message the discovery command delivers. -/
def DetectPorts (run : RemoteCmd → CmdResult) (probe : Int → CmdResult) :
    TeaMsg :=
  detectPortsMsg (detectRemotePorts run probe)

/-! ### The `PortForwarder` state machine (`port_forwarder.go`)

The mutex serialises `Start` and `Stop`, so each is modelled as one
atomic transition on the session state.  The single supervising goroutine
`monitorSSH` is modelled by an explicit phase, stepped by
`monitorStep`. -/

/-- Where the `monitorSSH` goroutine stands: not spawned, at its
`select`, blocked in `sshCmd.Wait()`, or returned. -/
inductive MonitorPhase
  | idle
  | selecting
  | waitingProc
  | exited
deriving DecidableEq

/-- The state of one `PortForwarder`: the `isRunning` flag, whether
`stopChan` has been closed, whether `sshCmd` has been assigned
(`sshCmd != nil`), whether its `Process` field is set (a successful
`Start()`), whether the spawned ssh process is alive, and the monitor
goroutine's phase. -/
structure PFState where
  isRunning : Bool
  stopClosed : Bool
  cmdSet : Bool
  procStarted : Bool
  procAlive : Bool
  monitor : MonitorPhase
deriving DecidableEq

/-- The state produced by `NewPortForwarder`: fresh stop channel,
nothing running. -/
def initPF : PFState :=
  ⟨false, false, false, false, false, MonitorPhase.idle⟩

/-- How many supervising tasks of the session are still live. -/
def outstandingTasks (s : PFState) : Nat :=
  match s.monitor with
  | MonitorPhase.selecting => 1
  | MonitorPhase.waitingProc => 1
  | _ => 0

/-- One step of `monitorSSH`: at the `select`, a closed `stopChan` makes
the first case ready and the goroutine returns, otherwise the `default`
branch calls `sshCmd.Wait()`; `Wait()` returns once the process is no
longer alive. -/
def monitorStep (s : PFState) : PFState :=
  match s.monitor with
  | MonitorPhase.selecting =>
    if s.stopClosed then { s with monitor := MonitorPhase.exited }
    else { s with monitor := MonitorPhase.waitingProc }
  | MonitorPhase.waitingProc =>
    if s.procAlive = false then { s with monitor := MonitorPhase.exited }
    else s
  | _ => s

/-- `PortForwarder.Start` with the mutex held.  `startOk` is whether
`exec.Cmd.Start()` succeeds.  An already-running session is rejected
unchanged; otherwise `sshCmd` is assigned a fresh command (its `Process`
still nil), and on a successful spawn the flag is set and `monitorSSH`
is launched. -/
def pfStart (startOk : Bool) (s : PFState) : PFState × Except Unit Unit :=
  if s.isRunning then (s, Except.error ())
  else
    let s1 := { s with cmdSet := true, procStarted := false, procAlive := false }
    if startOk then
      ({ s1 with
          isRunning := true
          procStarted := true
          procAlive := true
          monitor := MonitorPhase.selecting },
        Except.ok ())
    else (s1, Except.error ())

/-- The part of `PortForwarder.Stop` before `wg.Wait()`: return at once
when not running; otherwise clear the flag, close `stopChan` (`none`
models the runtime panic of closing an already-closed channel), and kill
the ssh process when `sshCmd != nil && sshCmd.Process != nil`. -/
def pfStopSignal (s : PFState) : Option PFState :=
  if s.isRunning = false then some s
  else if s.stopClosed then none
  else
    let s1 := { s with isRunning := false, stopClosed := true }
    some (if s1.cmdSet ∧ s1.procStarted then { s1 with procAlive := false } else s1)

/-- `PortForwarder.Stop` in full: after the signal-and-kill phase,
`wg.Wait()` blocks until the monitor goroutine has run to completion, so
the state `Stop` returns in is the signalled state with the monitor
stepped to its fixed point (one step suffices once the stop signal is
visible and the process is dead; a second is taken for the `select`
default branch). -/
def pfStop (s : PFState) : Option PFState :=
  if s.isRunning = false then some s
  else if s.stopClosed then none
  else
    let s1 := { s with isRunning := false, stopClosed := true }
    let s2 := if s1.cmdSet ∧ s1.procStarted then { s1 with procAlive := false } else s1
    some (monitorStep (monitorStep s2))

/-! ### Local-port allocation and the controller commands -/

/-- `findPreferredLocalPort`.  `avail p` is the outcome of
`isPortAvailable p` (binding and immediately closing a listener on `p`);
`eph` is the outcome of `findAvailablePort` (binding `:0` and reading
back the assigned port).  Same-port first, ephemeral fallback. -/
def findPreferredLocalPort (avail : Int → Bool) (eph : Except Unit Int)
    (remotePort : Int) : Except Unit (Int × Bool) :=
  if avail remotePort then Except.ok (remotePort, true)
  else
    match eph with
    | Except.error e => Except.error e
    | Except.ok p => Except.ok (p, false)

/-- How far a `StartPortForwarding` / `StartManualPortForwarding`
invocation got before producing its message. -/
inductive FwdStage
  | rejectedParse
  | rejectedRange
  | allocFailed
  | spawnFailed
  | sessionStarted
deriving DecidableEq

/-- The body of the `StartPortForwarding` command: allocate a local
port (error message on allocation failure), then create a fresh
`PortForwarder` and `Start` it (error message on spawn failure),
otherwise report the established mapping. -/
def startPortForwarding (avail : Int → Bool) (eph : Except Unit Int)
    (startOk : Bool) (remotePort : Int) : TeaMsg × FwdStage :=
  match findPreferredLocalPort avail eph remotePort with
  | Except.error _ => (TeaMsg.errorMsg, FwdStage.allocFailed)
  | Except.ok (localPort, _) =>
    match pfStart startOk initPF with
    | (_, Except.error _) => (TeaMsg.errorMsg, FwdStage.spawnFailed)
    | (_, Except.ok _) =>
      (TeaMsg.forwardingStarted localPort remotePort, FwdStage.sessionStarted)

/-- The body of the `StartManualPortForwarding` command: `Atoi` the
manual text (error message on parse failure), reject values outside
`1 ≤ p ≤ 65535` (the Go guard is `remotePort <= 0 || remotePort >
65535`), then proceed exactly as `StartPortForwarding`. -/
def startManualPortForwarding (avail : Int → Bool) (eph : Except Unit Int)
    (startOk : Bool) (portStr : List Char) : TeaMsg × FwdStage :=
  match atoi portStr with
  | none => (TeaMsg.errorMsg, FwdStage.rejectedParse)
  | some remotePort =>
    if remotePort ≤ 0 ∨ remotePort > 65535 then
      (TeaMsg.errorMsg, FwdStage.rejectedRange)
    else startPortForwarding avail eph startOk remotePort

/-! ### The ssh-library variant's parse pipeline (for the refinement
claim)

The repository keeps two `detectRemotePorts` side by side; the
ssh-library variant's parse stage (lines 113-133 of its file) and its
own `removeDuplicates` are transcribed here independently, with the
accumulating loops written as left folds over explicit accumulator
pairs, the way the Go loops grow their slices. -/

/-- The parse loop of the ssh-library variant: grow `ports` by appending
each line that survives trim / `Atoi` / the range check. -/
def collectPortsV1 (lines : List (List Char)) : List Int :=
  lines.foldl
    (fun acc line =>
      match parseLine line with
      | some port => acc ++ [port]
      | none => acc)
    []

/-- `removeDuplicates` as written in the ssh-library variant's file:
one pass with a `keys` set and a `result` slice, both growing. -/
def removeDuplicatesV1 (slice : List Int) : List Int :=
  (slice.foldl
      (fun acc item =>
        if item ∈ acc.1 then acc else (item :: acc.1, acc.2 ++ [item]))
      (([] : List Int), ([] : List Int))).2

/-- The whole parse stage of the ssh-library variant's
`detectRemotePorts`. -/
def parseDetectedPortsV1 (output : List Char) : List Int :=
  sortInts (removeDuplicatesV1 (collectPortsV1 (splitNewline output)))

/-! ### Helper lemmas -/

theorem mem_removeDupAux (l : List Int) :
    ∀ (seen : List Int) (a : Int),
      a ∈ removeDupAux l seen ↔ a ∈ l ∧ a ∉ seen := by
  induction l with
  | nil => intro seen a; simp [removeDupAux]
  | cons x xs ih =>
    intro seen a
    by_cases hx : x ∈ seen
    · rw [removeDupAux, if_pos hx, ih]
      constructor
      · rintro ⟨h1, h2⟩; exact ⟨List.mem_cons_of_mem _ h1, h2⟩
      · rintro ⟨h1, h2⟩
        rcases List.mem_cons.mp h1 with h1 | h1
        · subst h1; exact absurd hx h2
        · exact ⟨h1, h2⟩
    · rw [removeDupAux, if_neg hx]
      constructor
      · intro hmem
        rcases List.mem_cons.mp hmem with h1 | h1
        · subst h1; exact ⟨List.mem_cons_self _ _, hx⟩
        · rcases (ih _ _).mp h1 with ⟨h2, h3⟩
          refine ⟨List.mem_cons_of_mem _ h2, fun hs => h3 ?_⟩
          exact List.mem_cons_of_mem _ hs
      · rintro ⟨h1, h2⟩
        by_cases hax : a = x
        · subst hax; exact List.mem_cons_self _ _
        · rcases List.mem_cons.mp h1 with h3 | h3
          · exact absurd h3 hax
          · refine List.mem_cons_of_mem _ ((ih _ _).mpr ⟨h3, ?_⟩)
            intro hs
            rcases List.mem_cons.mp hs with h4 | h4
            · exact hax h4
            · exact h2 h4

theorem nodup_removeDupAux (l : List Int) :
    ∀ seen : List Int, (removeDupAux l seen).Nodup := by
  induction l with
  | nil => intro seen; simp [removeDupAux]
  | cons x xs ih =>
    intro seen
    by_cases hx : x ∈ seen
    · rw [removeDupAux, if_pos hx]; exact ih seen
    · rw [removeDupAux, if_neg hx]
      refine List.nodup_cons.mpr ⟨?_, ih _⟩
      intro hmem
      rcases (mem_removeDupAux xs _ x).mp hmem with ⟨-, hns⟩
      exact hns (List.mem_cons_self x seen)

theorem mem_removeDuplicates {l : List Int} {a : Int} :
    a ∈ removeDuplicates l ↔ a ∈ l := by
  rw [removeDuplicates, mem_removeDupAux]
  simp

theorem nodup_removeDuplicates (l : List Int) : (removeDuplicates l).Nodup :=
  nodup_removeDupAux l []

theorem mem_sortInts {l : List Int} {a : Int} : a ∈ sortInts l ↔ a ∈ l :=
  (List.perm_insertionSort _ l).mem_iff

theorem sortInts_sorted_lt_of_nodup {l : List Int} (h : l.Nodup) :
    List.Sorted (· < ·) (sortInts l) := by
  have hs : List.Sorted (· ≤ ·) (sortInts l) := List.sorted_insertionSort _ l
  have hp : List.Perm (sortInts l) l := List.perm_insertionSort _ l
  exact hs.lt_of_le (hp.nodup_iff.mpr h)

theorem atoi_nil : atoi [] = none := rfl

theorem parseLine_bounds {line : List Char} {p : Int}
    (h : parseLine line = some p) : 0 < p ∧ p < 65536 := by
  by_cases ht : trimSpace line = []
  · simp [parseLine, ht] at h
  · simp only [parseLine, if_neg ht] at h
    cases hat : atoi (trimSpace line) with
    | none => rw [hat] at h; cases h
    | some q =>
      rw [hat] at h
      change (if 0 < q ∧ q < 65536 then some q else none) = some p at h
      by_cases hr : 0 < q ∧ q < 65536
      · rw [if_pos hr] at h
        cases h
        exact hr
      · rw [if_neg hr] at h; cases h

theorem parseLine_of_atoi {line : List Char} {n : Int}
    (h : atoi (trimSpace line) = some n) (h1 : 0 < n) (h2 : n < 65536) :
    parseLine line = some n := by
  have ht : trimSpace line ≠ [] := by
    intro he
    rw [he, atoi_nil] at h
    cases h
  simp only [parseLine, if_neg ht]
  rw [h]
  change (if 0 < n ∧ n < 65536 then some n else none) = some n
  rw [if_pos ⟨h1, h2⟩]

theorem runCommandLoop_all_failed (run : RemoteCmd → CmdResult) :
    ∀ (cs : List RemoteCmd) (acc : CmdResult),
      (∀ c ∈ cs, (run c).failed = true ∨ (run c).out = []) →
      (acc.failed = true ∨ acc.out = []) →
      ((runCommandLoop run cs acc).failed = true ∨
        (runCommandLoop run cs acc).out = []) := by
  intro cs
  induction cs with
  | nil => intro acc h hacc; simpa [runCommandLoop] using hacc
  | cons c cs ih =>
    intro acc h hacc
    have hc := h c (List.mem_cons_self c cs)
    simp only [runCommandLoop]
    split_ifs with hbr
    · rcases hc with hf | ho
      · rw [hbr.1] at hf; cases hf
      · exact absurd ho hbr.2
    · exact ih (run c) (fun d hd => h d (List.mem_cons_of_mem _ hd)) hc

theorem monitorStep_fields (s : PFState) :
    (monitorStep s).isRunning = s.isRunning ∧
    (monitorStep s).stopClosed = s.stopClosed ∧
    (monitorStep s).cmdSet = s.cmdSet ∧
    (monitorStep s).procStarted = s.procStarted ∧
    (monitorStep s).procAlive = s.procAlive := by
  rcases s with ⟨ir, sc, cs, ps, pa, m⟩
  cases m <;> simp [monitorStep] <;> split_ifs <;> simp

theorem collectPortsV1_foldl (lines : List (List Char)) :
    ∀ acc : List Int,
      lines.foldl
        (fun acc line =>
          match parseLine line with
          | some port => acc ++ [port]
          | none => acc) acc = acc ++ lines.filterMap parseLine := by
  induction lines with
  | nil => intro acc; simp
  | cons l ls ih =>
    intro acc
    cases hp : parseLine l with
    | none => simp [hp, ih, List.filterMap_cons]
    | some p => simp [hp, ih, List.filterMap_cons]

theorem removeDuplicatesV1_foldl (slice : List Int) :
    ∀ keys res : List Int,
      (slice.foldl
          (fun acc item =>
            if item ∈ acc.1 then acc else (item :: acc.1, acc.2 ++ [item]))
          (keys, res)).2 = res ++ removeDupAux slice keys := by
  induction slice with
  | nil => intro keys res; simp [removeDupAux]
  | cons x xs ih =>
    intro keys res
    by_cases hx : x ∈ keys
    · simp [hx, removeDupAux, ih]
    · simp [hx, removeDupAux, ih]

theorem collectPortsV1_eq (lines : List (List Char)) :
    collectPortsV1 lines = lines.filterMap parseLine := by
  simpa [collectPortsV1] using collectPortsV1_foldl lines []

theorem removeDuplicatesV1_eq (slice : List Int) :
    removeDuplicatesV1 slice = removeDuplicates slice := by
  simpa [removeDuplicatesV1, removeDuplicates] using
    removeDuplicatesV1_foldl slice [] []

/-! ### Claim theorems -/

/-- C1: for every host environment (every outcome of the remote
enumeration strategies and probes, including command failure and empty
output), `DetectPorts` delivers exactly one `PortsDetectedMsg` carrying a
(possibly empty) port list and never an `ErrorMsg`; the error branch of
the command degrades any internal failure to the empty list. -/
theorem detectPorts_one_result_never_error
    (run : RemoteCmd → CmdResult) (probe : Int → CmdResult) :
    (∃ ports, DetectPorts run probe = TeaMsg.portsDetected ports) ∧
    DetectPorts run probe ≠ TeaMsg.errorMsg ∧
    (∀ e, detectPortsMsg (Except.error e) = TeaMsg.portsDetected []) := by
  refine ⟨?_, ?_, fun e => rfl⟩
  · unfold DetectPorts detectPortsMsg
    cases detectRemotePorts run probe with
    | error e => exact ⟨[], rfl⟩
    | ok ps => exact ⟨ps, rfl⟩
  · unfold DetectPorts detectPortsMsg
    cases detectRemotePorts run probe with
    | error e => simp
    | ok ps => simp

/-- C2: the parse stage produces a strictly ascending (hence
duplicate-free) sequence of integers all within `[1, 65535]`, and every
line of the input whose trimmed text `Atoi`-parses to an in-range value
appears in the result. -/
theorem parse_stage_sorted_bounded_complete (output : List Char) :
    List.Sorted (· < ·) (parseDetectedPorts output) ∧
    (∀ p ∈ parseDetectedPorts output, 1 ≤ p ∧ p ≤ 65535) ∧
    (∀ line ∈ splitNewline output, ∀ n : Int,
      atoi (trimSpace line) = some n → 0 < n → n < 65536 →
      n ∈ parseDetectedPorts output) := by
  refine ⟨?_, ?_, ?_⟩
  · exact sortInts_sorted_lt_of_nodup (nodup_removeDuplicates _)
  · intro p hp
    rw [parseDetectedPorts, mem_sortInts, mem_removeDuplicates] at hp
    rcases List.mem_filterMap.mp hp with ⟨line, -, hpl⟩
    have hb := parseLine_bounds hpl
    omega
  · intro line hline n hat h1 h2
    have hpl := parseLine_of_atoi hat h1 h2
    rw [parseDetectedPorts, mem_sortInts, mem_removeDuplicates]
    exact List.mem_filterMap.mpr ⟨line, hline, hpl⟩

/-- Witness for C2 at the concrete strategy output
`"80\n 22 \n80\nx\n70000\n"`: the line `" 22 "` parses in range, and 22
indeed appears in the parsed result. -/
theorem parse_stage_sorted_bounded_complete_witness :
    (22 : Int) ∈ parseDetectedPorts
      ['8', '0', '\n', ' ', '2', '2', ' ', '\n', '8', '0', '\n', 'x', '\n',
        '7', '0', '0', '0', '0', '\n'] :=
  (parse_stage_sorted_bounded_complete _).2.2
    [' ', '2', '2', ' '] (by decide) 22 (by decide) (by decide) (by decide)

/-- C3: the allocator returns `(remotePort, true)` when a listener can
be bound on `remotePort`, and otherwise either propagates the
ephemeral-bind error or returns `(p, false)` where `p` is the
OS-assigned ephemeral port; under the environment-consistency assumption
that an ephemeral port handed out by the OS is itself bindable, `p`
differs from the occupied `remotePort`. -/
theorem allocate_same_port_policy (avail : Int → Bool)
    (eph : Except Unit Int) (remotePort : Int)
    (hcons : ∀ p, eph = Except.ok p → avail p = true) :
    (avail remotePort = true →
      findPreferredLocalPort avail eph remotePort =
        Except.ok (remotePort, true)) ∧
    (avail remotePort = false →
      (∀ e, eph = Except.error e →
        findPreferredLocalPort avail eph remotePort = Except.error e) ∧
      (∀ p, eph = Except.ok p →
        findPreferredLocalPort avail eph remotePort = Except.ok (p, false) ∧
          p ≠ remotePort)) := by
  constructor
  · intro h
    simp [findPreferredLocalPort, h]
  · intro h
    constructor
    · intro e heph
      simp [findPreferredLocalPort, h, heph]
    · intro p heph
      refine ⟨by simp [findPreferredLocalPort, h, heph], ?_⟩
      intro hpe
      subst hpe
      rw [hcons p heph] at h
      cases h

/-- Witness for C3: with only port 4321 bindable, the ephemeral probe
returning 4321, and remote port 3000 occupied, the allocator answers
`(4321, false)`. -/
theorem allocate_same_port_policy_witness :
    findPreferredLocalPort (fun p => decide (p = 4321)) (Except.ok 4321)
      3000 = Except.ok (4321, false) := by
  have h := allocate_same_port_policy (fun p => decide (p = 4321))
    (Except.ok 4321) 3000 ?_
  · exact ((h.2 (by decide)).2 4321 rfl).1
  · intro p hp
    injection hp with h2
    subst h2
    decide

/-- C8: whenever every enumeration strategy fails or returns empty
output, discovery returns exactly the ports of the fixed candidate list
that are reachable through the transport (the result is a probe-only
expression, independent of the command runner, so no further remote
enumeration happens), and the empty list when none are reachable. -/
theorem fallback_probe_exact (run : RemoteCmd → CmdResult)
    (probe : Int → CmdResult)
    (hfail : ∀ c ∈ commands, (run c).failed = true ∨ (run c).out = []) :
    detectRemotePorts run probe =
      Except.ok (commonPorts.filter (probeIsOpen probe)) ∧
    ((∀ p ∈ commonPorts, probeIsOpen probe p = false) →
      detectRemotePorts run probe = Except.ok []) := by
  have hloop :=
    runCommandLoop_all_failed run commands ⟨[], false⟩ hfail (Or.inr rfl)
  have hmain : detectRemotePorts run probe =
      Except.ok (commonPorts.filter (probeIsOpen probe)) := by
    unfold detectRemotePorts detectCommonPorts
    rw [if_pos hloop]
  refine ⟨hmain, fun hnone => ?_⟩
  rw [hmain]
  congr 1
  exact List.filter_eq_nil_iff.mpr fun p hp => by simp [hnone p hp]

/-- Witness for C8: with every enumeration command failing and every
probe failing, discovery returns the empty list. -/
theorem fallback_probe_exact_witness :
    detectRemotePorts (fun _ => ⟨[], true⟩) (fun _ => ⟨[], true⟩) =
      Except.ok [] :=
  (fallback_probe_exact (fun _ => ⟨[], true⟩) (fun _ => ⟨[], true⟩)
    (by decide)).2 (by decide)

/-- C4 counterexample: starting a fresh session, stopping it, and
calling `Start` again succeeds and begins a new forwarding run (the ssh
process is spawned, the running flag is set), refuting "calling Start on
a session that has been Stopped does not begin a new forwarding run". -/
theorem start_after_stop_counterexample :
    pfStop (pfStart true initPF).1 =
      some ⟨false, true, true, true, false, MonitorPhase.exited⟩ ∧
    (pfStart true
        ⟨false, true, true, true, false, MonitorPhase.exited⟩).2 =
      Except.ok () ∧
    (pfStart true
        ⟨false, true, true, true, false, MonitorPhase.exited⟩).1.isRunning =
      true ∧
    (pfStart true
        ⟨false, true, true, true, false, MonitorPhase.exited⟩).1.procAlive =
      true :=
  ⟨rfl, rfl, rfl, rfl⟩

/-- C4 (amended): `Start` on a session that is already running returns
an error and leaves the session's state unchanged; the session tracks
only a running flag, so `Start` from any non-running state — including a
stopped one — passes the guard and, when the spawn succeeds, begins a
new forwarding run (fresh sessions per request are the controller's
job). -/
theorem start_guard_running_flag (s : PFState) (startOk : Bool) :
    (s.isRunning = true → pfStart startOk s = (s, Except.error ())) ∧
    (s.isRunning = false →
      ((pfStart startOk s).2 = Except.ok () ↔ startOk = true) ∧
      (startOk = true →
        (pfStart startOk s).1.isRunning = true ∧
        (pfStart startOk s).1.procAlive = true)) := by
  constructor
  · intro h
    simp [pfStart, h]
  · intro h
    cases startOk <;> simp [pfStart, h]

/-- Witness for C4 (amended): `Start` on a running session is rejected
unchanged. -/
theorem start_guard_running_flag_witness :
    pfStart false ⟨true, false, true, true, true, MonitorPhase.selecting⟩ =
      (⟨true, false, true, true, true, MonitorPhase.selecting⟩,
        Except.error ()) :=
  (start_guard_running_flag
    ⟨true, false, true, true, true, MonitorPhase.selecting⟩ false).1 rfl

/-- C5: `Stop` on a session that is not running (never started, or
already stopped) returns immediately with the state unchanged; any
completed `Stop` leaves a non-running state on which a second `Stop` is
a no-op; and the session's closeable resources are never reopened: no
transition of `Stop` reopens the closed stop channel or revives the
killed transport process (which owns the local listener in this
implementation), and `Start` never un-closes the stop channel. -/
theorem stop_idempotent_no_reopen (s : PFState) :
    (s.isRunning = false → pfStop s = some s) ∧
    (∀ t, pfStop s = some t → t.isRunning = false ∧ pfStop t = some t) ∧
    (∀ t, pfStop s = some t → s.stopClosed = true → t.stopClosed = true) ∧
    (∀ t, pfStop s = some t → s.procAlive = false → t.procAlive = false) ∧
    (∀ ok, s.stopClosed = true → ((pfStart ok s).1).stopClosed = true) := by
  have hnr : ∀ t, pfStop s = some t → t.isRunning = false := by
    intro t ht
    by_cases h1 : s.isRunning = false
    · rw [pfStop, if_pos h1] at ht
      cases ht
      exact h1
    · rw [pfStop, if_neg h1] at ht
      by_cases h2 : s.stopClosed
      · rw [if_pos h2] at ht; cases ht
      · rw [if_neg h2] at ht
        cases ht
        rw [(monitorStep_fields _).1, (monitorStep_fields _).1]
        split_ifs <;> rfl
  have hstop0 : ∀ u : PFState, u.isRunning = false → pfStop u = some u := by
    intro u hu
    rw [pfStop, if_pos hu]
  refine ⟨hstop0 s, fun t ht => ⟨hnr t ht, hstop0 t (hnr t ht)⟩, ?_, ?_, ?_⟩
  · intro t ht hsc
    by_cases h1 : s.isRunning = false
    · rw [pfStop, if_pos h1] at ht
      cases ht
      exact hsc
    · rw [pfStop, if_neg h1, if_pos hsc] at ht
      cases ht
  · intro t ht hpa
    by_cases h1 : s.isRunning = false
    · rw [pfStop, if_pos h1] at ht
      cases ht
      exact hpa
    · rw [pfStop, if_neg h1] at ht
      by_cases h2 : s.stopClosed
      · rw [if_pos h2] at ht; cases ht
      · rw [if_neg h2] at ht
        cases ht
        rw [(monitorStep_fields _).2.2.2.2, (monitorStep_fields _).2.2.2.2]
        split_ifs <;> simp [hpa]
  · intro ok hsc
    rw [pfStart]
    split_ifs <;> simp [hsc]

/-- Witness for C5: `Stop` before any `Start` is an unchanged no-op. -/
theorem stop_idempotent_no_reopen_witness : pfStop initPF = some initPF :=
  (stop_idempotent_no_reopen initPF).1 rfl

/-- C6: on a running session, `Stop` signals the stop condition (closes
the stop channel), terminates the dedicated ssh transport process, and
its `wg.Wait()` barrier means the state it returns in is the signalled
state with the supervising monitor task stepped to completion — whatever
phase the monitor was in, after the signal it observes the closed stop
channel (at its `select`) or the dead process (in `Wait()`) and exits,
so the returned state has zero outstanding tasks and no live process. -/
theorem stop_drains_tasks (s : PFState)
    (hrun : s.isRunning = true) (hsc : s.stopClosed = false)
    (hcmd : s.cmdSet = true) (hproc : s.procStarted = true) :
    pfStopSignal s = some ⟨false, true, true, true, false, s.monitor⟩ ∧
    pfStop s =
      some (monitorStep
        (monitorStep ⟨false, true, true, true, false, s.monitor⟩)) ∧
    outstandingTasks
        (monitorStep
          (monitorStep ⟨false, true, true, true, false, s.monitor⟩)) = 0 ∧
    (monitorStep
        (monitorStep ⟨false, true, true, true, false, s.monitor⟩)).procAlive =
      false ∧
    (monitorStep
        (monitorStep ⟨false, true, true, true, false, s.monitor⟩)).stopClosed =
      true := by
  rcases s with ⟨ir, sc, cs, ps, pa, m⟩
  simp only at hrun hsc hcmd hproc
  subst hrun hsc hcmd hproc
  cases m <;> exact ⟨rfl, rfl, rfl, rfl, rfl⟩

/-- Witness for C6: stopping a running session whose monitor is blocked
in `Wait()` returns the fully drained state. -/
theorem stop_drains_tasks_witness :
    pfStop ⟨true, false, true, true, true, MonitorPhase.waitingProc⟩ =
      some ⟨false, true, true, true, false, MonitorPhase.exited⟩ :=
  (stop_drains_tasks
    ⟨true, false, true, true, true, MonitorPhase.waitingProc⟩
    rfl rfl rfl rfl).2.1

/-- C7: manual port text is `Atoi`-parsed; non-numeric text or a value
outside `[1, 65535]` yields an `ErrorMsg` without reaching allocation or
session start (in particular for `"70000"`, `"-1"` and `"abc"`), and
exactly the in-range texts proceed to the allocation-and-start
pipeline. -/
theorem manual_port_text_validation (avail : Int → Bool)
    (eph : Except Unit Int) (startOk : Bool) (portStr : List Char) :
    (atoi portStr = none →
      startManualPortForwarding avail eph startOk portStr =
        (TeaMsg.errorMsg, FwdStage.rejectedParse)) ∧
    (∀ n : Int, atoi portStr = some n → n ≤ 0 ∨ n > 65535 →
      startManualPortForwarding avail eph startOk portStr =
        (TeaMsg.errorMsg, FwdStage.rejectedRange)) ∧
    (∀ n : Int, atoi portStr = some n → 1 ≤ n → n ≤ 65535 →
      startManualPortForwarding avail eph startOk portStr =
        startPortForwarding avail eph startOk n) ∧
    startManualPortForwarding avail eph startOk
        ['7', '0', '0', '0', '0'] =
      (TeaMsg.errorMsg, FwdStage.rejectedRange) ∧
    startManualPortForwarding avail eph startOk ['-', '1'] =
      (TeaMsg.errorMsg, FwdStage.rejectedRange) ∧
    startManualPortForwarding avail eph startOk ['a', 'b', 'c'] =
      (TeaMsg.errorMsg, FwdStage.rejectedParse) := by
  refine ⟨?_, ?_, ?_, rfl, rfl, rfl⟩
  · intro h
    rw [startManualPortForwarding, h]
  · intro n h hr
    rw [startManualPortForwarding, h]
    change (if n ≤ 0 ∨ n > 65535 then _ else _) = _
    rw [if_pos hr]
  · intro n h h1 h2
    rw [startManualPortForwarding, h]
    change (if n ≤ 0 ∨ n > 65535 then _ else _) = _
    rw [if_neg (by omega)]

/-- Witness for C7: the in-range text `"80"` proceeds to the
allocation-and-start pipeline for remote port 80. -/
theorem manual_port_text_validation_witness :
    startManualPortForwarding (fun _ => true) (Except.ok 1) true
        ['8', '0'] =
      startPortForwarding (fun _ => true) (Except.ok 1) true 80 :=
  (manual_port_text_validation (fun _ => true) (Except.ok 1) true
    ['8', '0']).2.2.1 80 (by decide) (by decide) (by decide)

/-- C9 counterexample: with every local bind failing (`avail` constantly
false, so in particular binding a listener on the remote port 3000 and
on the eventually chosen local port 50000 both fail) and the ephemeral
probe reporting 50000, `StartPortForwarding` emits
`ForwardingStartedMsg{50000, 3000}` and starts the session — no error
event and no `Stopped` transition — refuting "Start binds a local TCP
listener on localPort, and if that bind fails ... Stopped and ... an
error". The session's `Start` spawns the external ssh process and never
binds a listener itself. -/
theorem start_bind_claim_counterexample :
    startPortForwarding (fun _ => false) (Except.ok 50000) true 3000 =
      (TeaMsg.forwardingStarted 50000 3000, FwdStage.sessionStarted) ∧
    (fun _ : Int => false) 3000 = false ∧
    (fun _ : Int => false) 50000 = false :=
  ⟨rfl, rfl, rfl⟩

/-- C9 (amended): `Start` spawns the dedicated external ssh forwarding
process instead of binding a local listener itself (local-bind
availability is consulted only by the advisory allocator probe, whose
same-port failure falls back to an ephemeral port rather than erroring);
if spawning fails, `Start` returns an error with the session left not
running, and `StartPortForwarding` surfaces the failure — like an
allocator failure — as a single `ErrorMsg` event to the controller
rather than terminating anything. -/
theorem start_failure_single_error (avail : Int → Bool)
    (eph : Except Unit Int) (remotePort : Int) :
    (pfStart false initPF).2 = Except.error () ∧
    (pfStart false initPF).1.isRunning = false ∧
    (∀ lp sp,
      findPreferredLocalPort avail eph remotePort = Except.ok (lp, sp) →
      startPortForwarding avail eph false remotePort =
        (TeaMsg.errorMsg, FwdStage.spawnFailed)) ∧
    (∀ e, eph = Except.error e → avail remotePort = false →
      startPortForwarding avail eph false remotePort =
        (TeaMsg.errorMsg, FwdStage.allocFailed)) ∧
    (avail remotePort = true →
      startPortForwarding avail eph true remotePort =
        (TeaMsg.forwardingStarted remotePort remotePort,
          FwdStage.sessionStarted)) := by
  refine ⟨rfl, rfl, ?_, ?_, ?_⟩
  · intro lp sp halloc
    rw [startPortForwarding, halloc]
    rfl
  · intro e heph hav
    simp [startPortForwarding, findPreferredLocalPort, hav, heph]
  · intro hav
    simp [startPortForwarding, findPreferredLocalPort, hav, pfStart, initPF]

/-- Witness for C9 (amended): a failing spawn is surfaced as a single
error message. -/
theorem start_failure_single_error_witness :
    startPortForwarding (fun _ => true) (Except.ok 7777) false 3000 =
      (TeaMsg.errorMsg, FwdStage.spawnFailed) :=
  (start_failure_single_error (fun _ => true) (Except.ok 7777)
    3000).2.2.1 3000 true rfl

/-- C10: the ssh-library variant's parse pipeline and the spawned-ssh
variant's parse pipeline (split, trim, parse, range-filter, first-
occurrence dedup, ascending sort) agree on every raw strategy output. -/
theorem parse_pipelines_agree (output : List Char) :
    parseDetectedPortsV1 output = parseDetectedPorts output := by
  rw [parseDetectedPortsV1, parseDetectedPorts, collectPortsV1_eq,
    removeDuplicatesV1_eq]

/-! ### Sanity checks on concrete inputs -/

example : atoi ('8' :: ['0']) = some 80 := by decide
example : atoi ('-' :: ['1']) = some (-1) := by decide
example : atoi ('a' :: ['b', 'c']) = none := by decide
example : atoi [] = none := by decide
example : trimSpace (' ' :: ['2', '2', ' ', '\t']) = ['2', '2'] := by decide
example :
    parseDetectedPorts
      ('8' :: ['0', '\n', '4', '4', '3', '\n', '8', '0', '\n', 'x', '\n']) =
      [80, 443] := by decide
example :
    parseDetectedPorts ('7' :: ['0', '0', '0', '0', '\n', '0', '\n']) = [] := by
  decide

end Kport
